import Mathlib

/-!
# BillOps core — shallow embedding and verification

A shallow embedding, in Lean 4, of the algorithmic core of the BillOps
backend (`app/services/time_capture/{classifier,detector,heuristics}.py`,
`app/services/billing_rule.py`, `app/services/tasks/billing.py`), together
with theorems settling the specified properties of those components.

Modelling conventions:
* Python `datetime` instants are modelled as rational numbers of seconds
  (differences in seconds divided by 60 give the "minutes" quantities the
  source computes via `timedelta.total_seconds() / 60`).
* Python `float` arithmetic is modelled as exact rational arithmetic; the
  concrete inputs used in counterexamples and witnesses involve only
  values on which CPython's binary floating point is exact.
* Python dicts used as records become structures; a dict key that may be
  absent becomes an `Option` field.
* Python exceptions are modelled with `Option`/`Except` result types.
* Database rows are lists of records; the single-table queries the core
  performs (filter / order-by / first) are modelled as list filtering and
  stable sorting.  PDF rendering, S3 upload and the `meta` bookkeeping of
  `generate_invoice_task` are downstream of the verified computation and
  are not modelled.
-/

namespace BillOps

/-! ## Python-semantics utilities -/

/-- Python `str.lower()` (all strings in play are ASCII). -/
def pyLower (s : String) : String := ⟨s.data.map Char.toLower⟩

/-- Prefix test on character lists (`needle` is a prefix of `hay`). -/
def listPre : List Char → List Char → Bool
  | [], _ => true
  | _ :: _, [] => false
  | a :: as, b :: bs => a == b && listPre as bs

/-- Substring test on character lists, scanning every suffix of `hay`. -/
def listSub (needle : List Char) : List Char → Bool
  | [] => listPre needle []
  | c :: t => listPre needle (c :: t) || listSub needle t

/-- Python `needle in hay` on strings (substring containment). -/
def strIn (needle hay : String) : Bool := listSub needle.data hay.data

/-- Lexicographic comparison of character lists by code point, as Python
compares strings. -/
def lexLe : List Char → List Char → Bool
  | [], _ => true
  | _ :: _, [] => false
  | a :: as, b :: bs => if a = b then lexLe as bs else decide (a < b)

/-- Python `s1 <= s2` on strings. -/
def strLeB (a b : String) : Bool := lexLe a.data b.data

/-- Stable insertion of `a` into `l`: `a` goes after every earlier element
`b` with `le b a` (the placement Python's stable `sorted` gives). -/
def insertLe (le : α → α → Bool) (a : α) : List α → List α
  | [] => [a]
  | b :: bs => if le b a then b :: insertLe le a bs else a :: b :: bs

/-- Stable sort by `le`, modelling Python's `sorted` with a key. -/
def sortBy (le : α → α → Bool) : List α → List α
  | [] => []
  | a :: as => insertLe le a (sortBy le as)

/-- Last-occurrence-keeping deduplication, modelling collection into a
`set` (the order is irrelevant to callers, which sort afterwards). -/
def distinct [DecidableEq α] : List α → List α
  | [] => []
  | a :: as => if a ∈ as then distinct as else a :: distinct as

/-- The mathematical floor of a rational, written the way `Rat.floor`
computes it. -/
def pyFloor (q : ℚ) : ℤ := q.num / (q.den : ℤ)

/-- Python `int(q)`: truncation toward zero. -/
def pyInt (q : ℚ) : ℤ := Int.tdiv q.num (q.den : ℤ)

/-- Python 3 `round(q)` on a float: round half to even. -/
def pyRound (q : ℚ) : ℤ :=
  let f := pyFloor q
  if q - (f : ℚ) < 1/2 then f
  else if (1 : ℚ)/2 < q - (f : ℚ) then f + 1
  else if f % 2 = 0 then f else f + 1

/-- Round-half-to-even characterised through Mathlib's floor, ceiling and
(half-up) `round`, for stating the corrected rounding claim. -/
def roundHalfEven (q : ℚ) : ℤ :=
  if Int.fract q = 1/2 then (if Even ⌊q⌋ then ⌊q⌋ else ⌈q⌉) else round q

/-! ## Source classifier (`app/services/time_capture/classifier.py`) -/

/-- `ActivityType` enum from `classifier.py`. -/
inductive ActivityType where
  | focused_work
  | research
  | meeting
  | communication
  | admin
  | personal
  | idle
deriving DecidableEq, Repr

/-- The `.value` string of each `ActivityType` member. -/
def ActivityType.val : ActivityType → String
  | .focused_work => "focused_work"
  | .research => "research"
  | .meeting => "meeting"
  | .communication => "communication"
  | .admin => "admin"
  | .personal => "personal"
  | .idle => "idle"

/-- `SourceClassifier.WORK_APPLICATIONS` — known app names mapped to types. -/
def WORK_APPLICATIONS : List (String × ActivityType) :=
  [("vscode", .focused_work), ("jetbrains", .focused_work),
   ("sublime", .focused_work), ("chrome", .research), ("firefox", .research),
   ("zoom", .meeting), ("teams", .meeting), ("slack", .communication)]

/-- `SourceClassifier.WORK_DOMAINS`. -/
def WORK_DOMAINS : List String :=
  ["github.com", "stackoverflow.com", "trello.com", "slack.com"]

/-- Dict lookup in the `WORK_APPLICATIONS` table. -/
def tblLookup : List (String × ActivityType) → String → Option ActivityType
  | [], _ => none
  | (k, v) :: t, s => if k = s then some v else tblLookup t s

/-- An activity-signal dict as the pipeline consumes it: the `timestamp`
key (a datetime, modelled as rational seconds) plus the three string keys
`classify_signal` reads (`app`, `domain` and `type`, the last one named
`kind` here), each possibly absent. -/
structure Signal where
  timestamp : ℚ
  app : Option String
  domain : Option String
  kind : Option String
deriving DecidableEq, Repr

/-- `SourceClassifier.classify_signal`, for signals whose present fields
are strings (the `dict.get(key, "")` defaults stand in for absent keys). -/
def classify_signal (s : Signal) : ActivityType :=
  let app := pyLower (s.app.getD "")
  match tblLookup WORK_APPLICATIONS app with
  | some t => t
  | none =>
    let domain := pyLower (s.domain.getD "")
    if WORK_DOMAINS.any (fun wd => strIn wd domain) then .research
    else
      let k := pyLower (s.kind.getD "")
      if strIn "keyboard" k then .focused_work else .personal

/-- `SourceClassifier.is_work_related`. -/
def is_work_related (s : Signal) : Bool :=
  decide (classify_signal s ≠ ActivityType.personal)

/-! ### Raw-dict classifier, tracking `None` values (for the totality claim)

A Python dict key can be absent, present with value `None`, or present
with a string value. `classify_signal` calls `.lower()` on the result of
`dict.get(key, "")`; when a key is present with value `None` this raises
`AttributeError`. The `Option` result models that exception (`none` = the
call raises). -/

/-- One dict field of a raw signal: absent, `None`, or a string. -/
inductive PyField where
  | absent
  | null
  | str (s : String)
deriving DecidableEq, Repr

/-- A raw activity-signal dict as `classify_signal` actually receives it
(only the three keys the classifier reads). -/
structure PySignal where
  app : PyField
  domain : PyField
  kind : PyField
deriving DecidableEq, Repr

/-- `signal.get(key, "").lower()` on a raw field: `none` models the
`AttributeError` raised by `None.lower()`. -/
def pyGetLower (f : PyField) : Option String :=
  match f with
  | .absent => some (pyLower "")
  | .null => none
  | .str s => some (pyLower s)

/-- `SourceClassifier.classify_signal` over a raw dict, `none` modelling a
raised exception. -/
def classify_signal_py (s : PySignal) : Option ActivityType := do
  let app ← pyGetLower s.app
  match tblLookup WORK_APPLICATIONS app with
  | some t => pure t
  | none => do
    let domain ← pyGetLower s.domain
    if WORK_DOMAINS.any (fun wd => strIn wd domain) then pure .research
    else do
      let k ← pyGetLower s.kind
      if strIn "keyboard" k then pure .focused_work else pure .personal

/-- `SourceClassifier.is_work_related` over a raw dict. -/
def is_work_related_py (s : PySignal) : Option Bool :=
  (classify_signal_py s).map (fun t => decide (t ≠ ActivityType.personal))

/-- Raw signals without `None` values project onto `Signal` fields. -/
def PyField.toOpt : PyField → Option String
  | .absent => none
  | .null => none
  | .str s => some s

/-! ## Idle detector (`app/services/time_capture/detector.py`) -/

/-- `IdleSignal` named tuple from `detector.py`. -/
structure IdleSignal where
  start_time : ℚ
  end_time : ℚ
  idle_minutes : ℤ
  reason : String
deriving DecidableEq, Repr

/-- Sort key of `detect_idle_periods`: ascending `timestamp`. -/
def signalLeB (a b : Signal) : Bool := decide (a.timestamp ≤ b.timestamp)

/-- `sorted(activity_signals, key=lambda x: x["timestamp"])`. -/
def sortSignals (l : List Signal) : List Signal := sortBy signalLeB l

/-- The adjacent-pair loop body of `IdleDetector.detect_idle_periods`:
for each adjacent pair of the (already sorted) list, emit an idle period
when the gap in minutes reaches the threshold. -/
def detect_pairs (θ : ℤ) : List Signal → List IdleSignal
  | a :: b :: rest =>
    (if ((b.timestamp - a.timestamp) / 60 : ℚ) ≥ (θ : ℚ) then
      [⟨a.timestamp, b.timestamp, pyInt ((b.timestamp - a.timestamp) / 60),
        "inactivity_threshold"⟩]
     else []) ++ detect_pairs θ (b :: rest)
  | _ => []

/-- `IdleDetector.detect_idle_periods`. -/
def detect_idle_periods (signals : List Signal) (θ : ℤ) : List IdleSignal :=
  if signals.length < 2 then [] else detect_pairs θ (sortSignals signals)

/-- `IdleDetector.should_merge_with_idle`. -/
def should_merge_with_idle (gap_minutes : ℤ) (max_merge_idle : ℤ) : Bool :=
  decide (gap_minutes ≤ max_merge_idle)

/-- `IdleDetector.filter_idle_periods`: `(mergeable, breaks)`. -/
def filter_idle_periods (idle_periods : List IdleSignal) (max_merge_idle : ℤ) :
    List IdleSignal × List IdleSignal :=
  (idle_periods.filter (fun i => should_merge_with_idle i.idle_minutes max_merge_idle),
   idle_periods.filter (fun i => !should_merge_with_idle i.idle_minutes max_merge_idle))

/-! ## Heuristics engine (`app/services/time_capture/heuristics.py`) -/

/-- `ActivityHeuristics` weight constants (`0.9`, `0.85`, `0.75`, `0.7`,
`0.5` as exact rationals). -/
def FOCUSED_WORK_WEIGHT : ℚ := 9/10
def MEETING_WEIGHT : ℚ := 17/20
def RESEARCH_WEIGHT : ℚ := 3/4
def COMMUNICATION_WEIGHT : ℚ := 7/10
def UNCERTAIN_THRESHOLD : ℚ := 1/2

/-- The per-signal break test of `group_activities`:
`break_idle.start_time <= signal["timestamp"] <= break_idle.end_time`
for some break period. -/
def in_break (breaks : List IdleSignal) (s : Signal) : Bool :=
  breaks.any (fun b =>
    decide (b.start_time ≤ s.timestamp) && decide (s.timestamp ≤ b.end_time))

/-- The accumulation loop of `group_activities` over the work signals:
a signal falling in a break period flushes a non-empty current group
(and is itself dropped); otherwise it is appended to the current group;
a non-empty final group is flushed at end of stream. -/
def group_loop (breaks : List IdleSignal) :
    List Signal → List Signal → List (List Signal)
  | current, [] => if current.isEmpty then [] else [current]
  | current, s :: rest =>
    if in_break breaks s && !current.isEmpty then
      current :: group_loop breaks [] rest
    else
      group_loop breaks (current ++ [s]) rest

/-- The break periods `group_activities` computes for a signal stream:
idle periods of the work-filtered stream whose `idle_minutes` exceed
`max_merge_idle`. -/
def break_periods (signals : List Signal) (θ max_merge : ℤ) : List IdleSignal :=
  (filter_idle_periods
    (detect_idle_periods (signals.filter is_work_related) θ) max_merge).2

/-- `ActivityHeuristics.group_activities`. -/
def group_activities (signals : List Signal) (θ max_merge : ℤ) :
    List (List Signal) :=
  if signals.isEmpty then [] else
  let work_signals := signals.filter is_work_related
  if work_signals.isEmpty then [] else
  group_loop (break_periods signals θ max_merge) [] work_signals

/-- Count occurrences into an insertion-ordered association list, as a
Python dict built by `d[k] = d.get(k, 0) + 1` does. -/
def bump [DecidableEq α] (k : α) : List (α × ℕ) → List (α × ℕ)
  | [] => [(k, 1)]
  | (a, n) :: t => if a = k then (a, n + 1) :: t else (a, n) :: bump k t

/-- Tally a list into insertion-ordered counts. -/
def tally [DecidableEq α] : List α → List (α × ℕ)
  | [] => []
  | a :: t => bump a (tally t)

/-- Python `max(pairs, key=lambda x: x[1])` on a non-empty association
list: the first pair with the maximal count. -/
def firstMax : List (α × ℕ) → Option (α × ℕ)
  | [] => none
  | p :: t => some (t.foldl (fun best q => if q.2 > best.2 then q else best) p)

/-- The `type_multiplier` weight table of `calculate_confidence`
(`dict.get(dominant_type, UNCERTAIN_THRESHOLD)`). -/
def type_multiplier : ActivityType → ℚ
  | .focused_work => FOCUSED_WORK_WEIGHT
  | .meeting => MEETING_WEIGHT
  | .research => RESEARCH_WEIGHT
  | .communication => COMMUNICATION_WEIGHT
  | _ => UNCERTAIN_THRESHOLD

/-- `ActivityHeuristics.calculate_confidence`. -/
def calculate_confidence (signals : List Signal) : ℚ :=
  if signals.isEmpty then 0 else
  let type_counts := tally (signals.map classify_signal)
  let consistency_score : ℚ :=
    if type_counts.length = 1 then 1
    else ((type_counts.map (·.2)).foldl max 0 : ℕ) / (signals.length : ℚ)
  match firstMax type_counts with
  | some dominant => consistency_score * type_multiplier dominant.1
  | none => consistency_score * UNCERTAIN_THRESHOLD

/-- `tally` with keys rendered as `.value` strings, as
`get_context_data` keys its `activity_distribution` dict. -/
def tallyVal (types : List ActivityType) : List (String × ℕ) :=
  (tally types).map (fun p => (p.1.val, p.2))

/-- The `context_data` dict produced by
`SourceClassifier.get_context_data`. -/
structure ContextData where
  applications : List String
  domains : List String
  activity_distribution : List (String × ℕ)
  primary_activity : Option String
deriving DecidableEq, Repr

/-- Collect the truthy values of one optional dict key (the
`if v := signal.get(key)` walrus test), lower-cased, in stream order. -/
def truthyLower (get : Signal → Option String) (signals : List Signal) :
    List String :=
  signals.filterMap (fun s =>
    match get s with
    | some v => if v = "" then none else some (pyLower v)
    | none => none)

/-- `SourceClassifier.get_context_data`. -/
def get_context_data (signals : List Signal) : ContextData :=
  let dist := tallyVal (signals.map classify_signal)
  { applications := sortBy strLeB (distinct (truthyLower Signal.app signals)),
    domains := sortBy strLeB (distinct (truthyLower Signal.domain signals)),
    activity_distribution := dist,
    primary_activity := (firstMax dist).map (·.1) }

/-- `SuggestedTimeEntry` named tuple from `heuristics.py`. -/
structure SuggestedTimeEntry where
  started_at : ℚ
  ended_at : ℚ
  activity_type : String
  confidence : ℚ
  context_data : ContextData
  description : Option String
  should_verify : Bool
deriving DecidableEq, Repr

/-- Python truthiness of an optional string (`None` and `""` falsy). -/
def strTruthy : Option String → Bool
  | some s => s ≠ ""
  | none => false

/-- Python `f"{o}"` of an optional string (`None` prints as `"None"`). -/
def pyStr : Option String → String
  | some s => s
  | none => "None"

/-- Comma-join, as `", ".join(l)`. -/
def commaJoin : List String → String
  | [] => ""
  | [s] => s
  | s :: t => s ++ ", " ++ commaJoin t

/-- `ActivityHeuristics.create_suggested_entry` (the `activity_type`
parameter defaults to `None` in the source; the one caller passes
nothing). -/
def create_suggested_entry (signals : List Signal)
    (activity_type : Option String) : Option SuggestedTimeEntry :=
  match sortSignals signals with
  | [] => none
  | first :: rest =>
    let started_at := first.timestamp
    let ended_at := (rest.getLastD first).timestamp
    let confidence := calculate_confidence signals
    let should_verify := decide (confidence < UNCERTAIN_THRESHOLD)
    let context_data := get_context_data signals
    let primary_activity := context_data.primary_activity
    let resolved_activity_type :=
      if strTruthy primary_activity then pyStr primary_activity
      else if strTruthy activity_type then pyStr activity_type
      else "work"
    let apps := context_data.applications
    let description : Option String :=
      if apps.isEmpty then primary_activity
      else some (pyStr primary_activity ++ ": " ++ commaJoin (apps.take 3))
    some { started_at, ended_at, activity_type := resolved_activity_type,
           confidence, context_data, description, should_verify }

/-- `ActivityHeuristics.generate_time_entries`. -/
def generate_time_entries (signals : List Signal) (θ max_merge : ℤ) :
    List SuggestedTimeEntry :=
  (group_activities signals θ max_merge).filterMap
    (fun g => create_suggested_entry g none)

/-! ## Billing rules and invoice generation
(`app/models/*.py`, `app/services/billing_rule.py`,
`app/services/tasks/billing.py`) -/

/-- A `BillingRule` row (`app/models/billing_rule.py`); ids are abstract
naturals standing for UUIDs, instants are rational seconds. -/
structure BillingRule where
  id : ℕ
  project_id : ℕ
  rule_type : String
  rate_cents : ℤ
  rounding_increment_minutes : Option ℤ
  effective_from : ℚ
  effective_to : Option ℚ
deriving DecidableEq, Repr

/-- A `TimeEntry` row (`app/models/time_entry.py`), the fields billing
reads and writes. -/
structure TimeEntry where
  id : ℕ
  project_id : ℕ
  client_id : ℕ
  billing_rule_id : Option ℕ
  started_at : ℚ
  ended_at : ℚ
  duration_minutes : ℤ
  status : String
  description : Option String
deriving DecidableEq, Repr

/-- An `Invoice` row (`app/models/invoice.py`), the fields billing reads
and writes. -/
structure Invoice where
  id : ℕ
  client_id : ℕ
  project_id : Option ℕ
  subtotal_cents : ℤ
  tax_cents : ℤ
  total_cents : ℤ
  status : String
deriving DecidableEq, Repr

/-- The `billing_rule_snapshot` dict stored on each line item. -/
structure BillingRuleSnapshot where
  rule_id : Option ℕ
  rule_type : Option String
  rate_cents : ℤ
  increment_minutes : ℤ
deriving DecidableEq, Repr

/-- An `InvoiceLineItem` row (`app/models/invoice_line_item.py`).  The
source stores `quantity` as the string `f"{qty_hours:.2f} h"`; the model
keeps the underlying numeric `qty_hours` value. -/
structure InvoiceLineItem where
  invoice_id : ℕ
  time_entry_id : Option ℕ
  description : String
  quantity_hours : ℚ
  unit_price_cents : ℤ
  amount_cents : ℤ
  billing_rule_snapshot : BillingRuleSnapshot
deriving DecidableEq, Repr

/-- `_round_minutes` from `tasks/billing.py`: `//` is Python floor
division, hence `Int.fdiv`. -/
def _round_minutes (minutes : ℤ) (increment : Option ℤ) : ℤ :=
  match increment with
  | none => minutes
  | some inc => if inc ≤ 0 then minutes else ((minutes + inc - 1).fdiv inc) * inc

/-- The match predicate of `BillingRuleService.get_active_for_project`:
`project_id` equal, `effective_from <= now`, and `effective_to` null or
strictly after `now`. -/
def rule_matches (project_id : ℕ) (now : ℚ) (r : BillingRule) : Bool :=
  r.project_id == project_id && decide (r.effective_from ≤ now) &&
    (match r.effective_to with
     | none => true
     | some t => decide (now < t))

/-- `ORDER BY effective_from DESC` as a sort key. -/
def ruleDescLeB (a b : BillingRule) : Bool :=
  decide (b.effective_from ≤ a.effective_from)

/-- `BillingRuleService.get_active_for_project` over an explicit rule
table, with the query instant a parameter (`datetime.now` in the
source). -/
def get_active_for_project (rules : List BillingRule) (project_id : ℕ)
    (now : ℚ) : Option BillingRule :=
  (sortBy ruleDescLeB (rules.filter (rule_matches project_id now))).head?

/-- Sort key of the entry query: `ORDER BY started_at ASC`. -/
def entryLeB (a b : TimeEntry) : Bool := decide (a.started_at ≤ b.started_at)

/-- The approved-entry query of `generate_invoice_task`: filter by
client, status `approved`, optional project and optional period bounds,
ordered by `started_at` ascending. -/
def select_entries (entries : List TimeEntry) (client_id : ℕ)
    (project_id : Option ℕ) (period_start period_end : Option ℚ) :
    List TimeEntry :=
  sortBy entryLeB (entries.filter (fun te =>
    te.client_id == client_id && te.status == "approved" &&
    (match project_id with
     | none => true
     | some p => te.project_id == p) &&
    (match period_start with
     | none => true
     | some t => decide (t ≤ te.started_at)) &&
    (match period_end with
     | none => true
     | some t => decide (te.ended_at ≤ t))))

/-- One line item of the entry loop of `generate_invoice_task`
(lines 137-159 of `tasks/billing.py`). -/
def make_line_item (invoice_id : ℕ) (rule : Option BillingRule)
    (te : TimeEntry) : InvoiceLineItem :=
  let rate_cents : ℤ := match rule with | some r => r.rate_cents | none => 0
  let increment : Option ℤ :=
    match rule with | some r => r.rounding_increment_minutes | none => some 0
  let billable_minutes := _round_minutes te.duration_minutes increment
  let qty_hours : ℚ := (billable_minutes : ℚ) / 60
  let amount_cents := pyRound (qty_hours * (rate_cents : ℚ))
  { invoice_id := invoice_id,
    time_entry_id := some te.id,
    description :=
      match te.description with
      | some d => if d = "" then "Work" else d
      | none => "Work",
    quantity_hours := qty_hours,
    unit_price_cents := rate_cents,
    amount_cents := amount_cents,
    billing_rule_snapshot :=
      { rule_id := rule.map (·.id),
        rule_type := rule.map (·.rule_type),
        rate_cents := rate_cents,
        increment_minutes := increment.getD 0 } }

/-- The billed-transition write of the loop: status becomes `billed` and
the resolved rule (when any) is attached. -/
def bill_entry (rule : Option BillingRule) (te : TimeEntry) : TimeEntry :=
  { te with
    status := "billed",
    billing_rule_id :=
      match rule with | some r => some r.id | none => te.billing_rule_id }

/-- The entry loop of `generate_invoice_task`: line items in entry order,
the running integer subtotal, and the updated (billed) entries. -/
def billing_loop (invoice_id : ℕ) (rule : Option BillingRule) :
    List TimeEntry → List InvoiceLineItem × ℤ × List TimeEntry
  | [] => ([], 0, [])
  | te :: rest =>
    let li := make_line_item invoice_id rule te
    let (lis, sub, tes) := billing_loop invoice_id rule rest
    (li :: lis, li.amount_cents + sub, bill_entry rule te :: tes)

/-- The outcome of one `generate_invoice_task` run: created line items,
the updated invoice, and the updated time entries. -/
structure GenerateResult where
  line_items : List InvoiceLineItem
  invoice : Invoice
  entries : List TimeEntry
deriving DecidableEq, Repr

/-- The billing core of `generate_invoice_task` (lines 113-176 of
`tasks/billing.py`): select approved entries (an empty selection is the
explicit error result), resolve the active rule when the invoice has a
project, build line items and totals.  PDF rendering, S3 upload and
`meta` updates are downstream of these computations and not modelled;
the invoice status becomes `sent` as in the source. -/
def generate_invoice_task (invoice : Invoice) (all_entries : List TimeEntry)
    (rules : List BillingRule) (period_start period_end : Option ℚ)
    (now : ℚ) : Except String GenerateResult :=
  let entries := select_entries all_entries invoice.client_id
    invoice.project_id period_start period_end
  if entries.isEmpty then
    .error "No approved time entries found for invoice"
  else
    let rule : Option BillingRule :=
      match invoice.project_id with
      | none => none
      | some pid => get_active_for_project rules pid now
    let (line_items, subtotal_cents, billed) :=
      billing_loop invoice.id rule entries
    .ok { line_items := line_items,
          invoice := { invoice with
            subtotal_cents := subtotal_cents,
            total_cents := subtotal_cents + invoice.tax_cents,
            status := "sent" },
          entries := billed }

/-! ## Concurrency model for billing a single entry

`generate_invoice_task` reads an entry's status through the
`status == "approved"` query filter and only later writes
`status = "billed"`, committing at the end; there is no row lock or
conditional update between the two.  Two concurrent task executions over
the same entry are modelled as all interleavings of two two-step
programs, each consisting of an atomic read (the query) followed by an
atomic commit (line-item insert + billed transition, applied only if the
read saw `approved`). -/

/-- The events of two concurrent billing attempts on one entry: each
worker reads the entry status, then commits its conditional write. -/
inductive BillEv where
  | read1
  | commit1
  | read2
  | commit2
deriving DecidableEq, Repr

/-- Shared entry/line-item state plus each worker's read snapshot. -/
structure BillState where
  entry : TimeEntry
  items : List InvoiceLineItem
  read1 : Option String
  read2 : Option String
deriving DecidableEq, Repr

/-- One atomic step: a read records the current status; a commit, if its
read saw `approved`, inserts the line item and performs the billed
transition, else does nothing (the worker's query selected no entry). -/
def bill_step (invoice_id : ℕ) (rule : Option BillingRule)
    (st : BillState) : BillEv → BillState
  | .read1 => { st with read1 := some st.entry.status }
  | .read2 => { st with read2 := some st.entry.status }
  | .commit1 =>
    if st.read1 = some "approved" then
      { st with
        items := st.items ++ [make_line_item invoice_id rule st.entry],
        entry := bill_entry rule st.entry }
    else st
  | .commit2 =>
    if st.read2 = some "approved" then
      { st with
        items := st.items ++ [make_line_item invoice_id rule st.entry],
        entry := bill_entry rule st.entry }
    else st

/-- Run a schedule of events from an initial state. -/
def run_bill (invoice_id : ℕ) (rule : Option BillingRule)
    (init : BillState) (sched : List BillEv) : BillState :=
  sched.foldl (bill_step invoice_id rule) init

/-- All interleavings of two event sequences (each worker's program order
is preserved). -/
def interleavings : List BillEv → List BillEv → List (List BillEv)
  | [], ys => [ys]
  | x :: xs, [] => [x :: xs]
  | x :: xs, y :: ys =>
    (interleavings xs (y :: ys)).map (x :: ·) ++
      (interleavings (x :: xs) ys).map (y :: ·)
termination_by xs ys => xs.length + ys.length

/-- The schedules of two concurrent attempts: every interleaving of
worker 1's `read; commit` with worker 2's `read; commit`. -/
def bill_schedules : List (List BillEv) :=
  interleavings [.read1, .commit1] [.read2, .commit2]

/-- A schedule is serialized when one worker's commit precedes the other
worker's read — among `bill_schedules` exactly the two serial orders. -/
def serialized (sched : List BillEv) : Prop :=
  sched = [.read1, .commit1, .read2, .commit2] ∨
    sched = [.read2, .commit2, .read1, .commit1]

/-- The initial state of a double-billing race: one approved entry, no
line items, no reads yet. -/
def bill_init (te : TimeEntry) : BillState :=
  { entry := te, items := [], read1 := none, read2 := none }

/-! ## Concrete instances for the specified scenarios

Timestamps are seconds since midnight of the scenario day; `09:00` is
`32400`, `09:05` is `32700`, `09:10` is `33000`, `09:41` is `34860`,
`09:45` is `35100`. -/

/-- `09:00`, app `vscode`, keyboard. -/
def sig0900 : Signal := ⟨32400, some "vscode", none, some "keyboard"⟩
/-- `09:05`, app `vscode`, keyboard. -/
def sig0905 : Signal := ⟨32700, some "vscode", none, some "keyboard"⟩
/-- `09:10`, app `vscode`, keyboard. -/
def sig0910 : Signal := ⟨33000, some "vscode", none, some "keyboard"⟩
/-- `09:41`, app `chrome`, domain `stackoverflow.com`. -/
def sig0941 : Signal := ⟨34860, some "chrome", some "stackoverflow.com", none⟩
/-- `09:45`, app `chrome`, domain `stackoverflow.com`. -/
def sig0945 : Signal := ⟨35100, some "chrome", some "stackoverflow.com", none⟩

/-- The coding-then-research signal stream of the spec's first concrete
scenario. -/
def scenario_signals : List Signal :=
  [sig0900, sig0905, sig0910, sig0941, sig0945]

/-- Signal stream for the idle-detector counterexample: two signals at
the same instant and one `5.75` minutes (`345` seconds) later. -/
def idleCx_signals : List Signal :=
  [⟨0, none, none, none⟩, ⟨0, none, none, none⟩, ⟨345, none, none, none⟩]

/-- Two signals `5.75` minutes apart, for the idle-detector witness. -/
def c8pair_signals : List Signal :=
  [⟨0, none, none, none⟩, ⟨345, none, none, none⟩]

/-- A rule at `101` cents/hour with no rounding increment, for the
half-cent rounding counterexample. -/
def rule101 : BillingRule :=
  { id := 1, project_id := 1, rule_type := "hourly", rate_cents := 101,
    rounding_increment_minutes := none, effective_from := 0,
    effective_to := none }

/-- An approved half-hour entry: `0.5 h × 101 cents = 50.5 cents`,
exactly half a cent. -/
def te30 : TimeEntry :=
  { id := 1, project_id := 1, client_id := 1, billing_rule_id := none,
    started_at := 0, ended_at := 1800, duration_minutes := 30,
    status := "approved", description := some "half hour" }

/-- A rule at `10000` cents/hour rounding up to 15-minute increments, for
the spec's rounding scenario. -/
def rule15 : BillingRule :=
  { id := 2, project_id := 1, rule_type := "hourly", rate_cents := 10000,
    rounding_increment_minutes := some 15, effective_from := 0,
    effective_to := none }

/-- An approved 17-minute entry for the spec's rounding scenario. -/
def te17 : TimeEntry :=
  { id := 2, project_id := 1, client_id := 1, billing_rule_id := none,
    started_at := 0, ended_at := 1020, duration_minutes := 17,
    status := "approved", description := some "17 minutes" }

/-- Rule A of the resolver scenario: effective `[2024-01-01, 2024-06-01)`,
encoded as days since 2024-01-01: `[0, 152)`. -/
def ruleA : BillingRule :=
  { id := 10, project_id := 7, rule_type := "hourly", rate_cents := 5000,
    rounding_increment_minutes := some 0, effective_from := 0,
    effective_to := some 152 }

/-- Rule B of the resolver scenario: effective `[2024-03-01, null)`,
i.e. `[60, null)` in days since 2024-01-01. -/
def ruleB : BillingRule :=
  { id := 11, project_id := 7, rule_type := "hourly", rate_cents := 6000,
    rounding_increment_minutes := some 0, effective_from := 60,
    effective_to := none }

/-- The query instant `2024-04-01` = day `91` since 2024-01-01. -/
def apr1 : ℚ := 91

/-- The invoice of the subtotal witness run: client 3, project 9,
pre-existing tax of 500 cents. -/
def invC2 : Invoice :=
  { id := 20, client_id := 3, project_id := some 9, subtotal_cents := 0,
    tax_cents := 500, total_cents := 0, status := "draft" }

/-- The rule of the subtotal witness run: 1 cent/hour, no rounding, so
entry durations `199980`, `199980` and `200010` minutes price at
`3333`, `3333` and `3334` cents (`3333.5` rounds half-to-even up). -/
def ruleC2 : BillingRule :=
  { id := 21, project_id := 9, rule_type := "hourly", rate_cents := 1,
    rounding_increment_minutes := some 0, effective_from := 0,
    effective_to := none }

/-- First approved entry of the subtotal witness run (`3333` cents). -/
def teC2a : TimeEntry :=
  { id := 31, project_id := 9, client_id := 3, billing_rule_id := none,
    started_at := 100, ended_at := 200, duration_minutes := 199980,
    status := "approved", description := some "a" }

/-- Second approved entry of the subtotal witness run (`3333` cents). -/
def teC2b : TimeEntry :=
  { id := 32, project_id := 9, client_id := 3, billing_rule_id := none,
    started_at := 300, ended_at := 400, duration_minutes := 199980,
    status := "approved", description := some "b" }

/-- Third approved entry of the subtotal witness run (`3334` cents). -/
def teC2c : TimeEntry :=
  { id := 33, project_id := 9, client_id := 3, billing_rule_id := none,
    started_at := 500, ended_at := 600, duration_minutes := 200010,
    status := "approved", description := some "c" }

/-- The outcome of the subtotal witness run, spelled out: three line
items of `3333`, `3333` and `3334` cents, subtotal exactly `10000`,
total `10500` with the pre-existing `500` cents of tax. -/
def c2res : GenerateResult :=
  { line_items :=
      [{ invoice_id := 20, time_entry_id := some 31, description := "a",
         quantity_hours := 3333, unit_price_cents := 1, amount_cents := 3333,
         billing_rule_snapshot :=
           { rule_id := some 21, rule_type := some "hourly", rate_cents := 1,
             increment_minutes := 0 } },
       { invoice_id := 20, time_entry_id := some 32, description := "b",
         quantity_hours := 3333, unit_price_cents := 1, amount_cents := 3333,
         billing_rule_snapshot :=
           { rule_id := some 21, rule_type := some "hourly", rate_cents := 1,
             increment_minutes := 0 } },
       { invoice_id := 20, time_entry_id := some 33, description := "c",
         quantity_hours := 6667/2, unit_price_cents := 1, amount_cents := 3334,
         billing_rule_snapshot :=
           { rule_id := some 21, rule_type := some "hourly", rate_cents := 1,
             increment_minutes := 0 } }],
    invoice :=
      { id := 20, client_id := 3, project_id := some 9,
        subtotal_cents := 10000, tax_cents := 500, total_cents := 10500,
        status := "sent" },
    entries :=
      [{ teC2a with status := "billed", billing_rule_id := some 21 },
       { teC2b with status := "billed", billing_rule_id := some 21 },
       { teC2c with status := "billed", billing_rule_id := some 21 }] }

/-- An invoice for a client with no time entries at all (the empty
selection of the error scenario). -/
def invC9 : Invoice :=
  { id := 40, client_id := 8, project_id := none, subtotal_cents := 0,
    tax_cents := 0, total_cents := 0, status := "draft" }

/-- An invoice whose client has an approved entry but whose project has
no billing rule (the zero-rate, non-error scenario). -/
def invC9b : Invoice :=
  { id := 41, client_id := 1, project_id := some 1, subtotal_cents := 0,
    tax_cents := 0, total_cents := 0, status := "draft" }

/-- The raw signal whose `app` key is present with value `None`:
`classify_signal` calls `None.lower()` and raises. -/
def nullAppSignal : PySignal := ⟨.null, .absent, .absent⟩

/-- The overlapping schedule in which both workers read before either
commits. -/
def racy_schedule : List BillEv := [.read1, .read2, .commit1, .commit2]

/-! ## Helper lemmas: rounding -/

theorem pyFloor_eq_floor (q : ℚ) : pyFloor q = ⌊q⌋ := by
  rw [Rat.floor_def]; rfl

theorem pyInt_eq_floor_of_nonneg {q : ℚ} (h : 0 ≤ q) : pyInt q = ⌊q⌋ := by
  have hnum : 0 ≤ q.num := Rat.num_nonneg.mpr h
  have hden : (0 : ℤ) ≤ (q.den : ℤ) := Int.ofNat_nonneg q.den
  rw [Rat.floor_def]
  unfold pyInt
  rw [Int.tdiv_eq_ediv hnum hden]

theorem pyRound_eq_roundHalfEven (q : ℚ) : pyRound q = roundHalfEven q := by
  unfold pyRound roundHalfEven
  rw [pyFloor_eq_floor]
  have hfr : Int.fract q = q - (⌊q⌋ : ℚ) := rfl
  have hle : (⌊q⌋ : ℚ) ≤ q := Int.floor_le q
  have hlt : q < (⌊q⌋ : ℚ) + 1 := Int.lt_floor_add_one q
  by_cases h1 : q - (⌊q⌋ : ℚ) < 1/2
  · have hne : ¬ Int.fract q = 1/2 := by rw [hfr]; intro h; rw [h] at h1; norm_num at h1
    have hr : round q = ⌊q⌋ := by
      rw [round_eq]
      refine Int.floor_eq_iff.mpr ⟨by linarith, by linarith⟩
    rw [if_pos h1, if_neg hne, hr]
  · rw [if_neg h1]
    by_cases h2 : (1 : ℚ)/2 < q - (⌊q⌋ : ℚ)
    · have hne : ¬ Int.fract q = 1/2 := by rw [hfr]; intro h; rw [h] at h2; norm_num at h2
      have hr : round q = ⌊q⌋ + 1 := by
        rw [round_eq]
        refine Int.floor_eq_iff.mpr ⟨by push_cast; linarith, by push_cast; linarith⟩
      rw [if_pos h2, if_neg hne, hr]
    · have heq : Int.fract q = 1/2 := by rw [hfr]; linarith
      rw [if_neg h2, if_pos heq]
      have hceil : (⌈q⌉ : ℤ) = ⌊q⌋ + 1 := by
        refine Int.ceil_eq_iff.mpr ⟨by push_cast; linarith, by push_cast; linarith⟩
      have heven : (⌊q⌋ % 2 = 0) ↔ Even ⌊q⌋ := by
        rw [Int.even_iff]
      by_cases h3 : ⌊q⌋ % 2 = 0
      · rw [if_pos h3, if_pos (heven.mp h3)]
      · rw [if_neg h3, if_neg (fun h => h3 (heven.mpr h)), hceil]

theorem pyRound_zero : pyRound 0 = 0 := by
  simp [pyRound, pyFloor]

/-! ## Helper lemmas: the raw classifier -/

theorem pyGetLower_of_not_null {f : PyField} (h : f ≠ .null) :
    pyGetLower f = some (pyLower (f.toOpt.getD "")) := by
  cases f with
  | null => exact absurd rfl h
  | absent => rfl
  | str a => rfl

theorem classify_signal_py_eq_of_no_null (s : PySignal) (ts : ℚ)
    (ha : s.app ≠ .null) (hd : s.domain ≠ .null) (hk : s.kind ≠ .null) :
    classify_signal_py s =
      some (classify_signal ⟨ts, s.app.toOpt, s.domain.toOpt, s.kind.toOpt⟩) := by
  obtain ⟨app, domain, kind⟩ := s
  simp only [classify_signal_py, classify_signal,
    pyGetLower_of_not_null ha, pyGetLower_of_not_null hd,
    pyGetLower_of_not_null hk, Option.bind_eq_bind, Option.some_bind]
  split
  · rfl
  · split
    · rfl
    · split
      · rfl
      · rfl

/-! ## Helper lemmas: stable insertion sort -/

theorem mem_insertLe {le : α → α → Bool} {a x : α} {l : List α} :
    x ∈ insertLe le a l ↔ x = a ∨ x ∈ l := by
  induction l with
  | nil => simp [insertLe]
  | cons b bs ih =>
    by_cases h : le b a
    · simp only [insertLe, if_pos h, List.mem_cons, ih]
      tauto
    · simp only [insertLe, if_neg h, List.mem_cons]

theorem mem_sortBy {le : α → α → Bool} {x : α} {l : List α} :
    x ∈ sortBy le l ↔ x ∈ l := by
  induction l with
  | nil => simp [sortBy]
  | cons a as ih =>
    simp only [sortBy, mem_insertLe, List.mem_cons, ih]

theorem length_insertLe {le : α → α → Bool} (a : α) (l : List α) :
    (insertLe le a l).length = l.length + 1 := by
  induction l with
  | nil => rfl
  | cons b bs ih =>
    by_cases h : le b a
    · simp [insertLe, if_pos h, ih]
    · simp [insertLe, if_neg h]

theorem length_sortBy {le : α → α → Bool} (l : List α) :
    (sortBy le l).length = l.length := by
  induction l with
  | nil => rfl
  | cons a as ih => simp [sortBy, length_insertLe, ih]

theorem sortBy_eq_nil_iff {le : α → α → Bool} {l : List α} :
    sortBy le l = [] ↔ l = [] := by
  constructor
  · intro h
    have := @length_sortBy _ le l
    rw [h] at this
    exact List.length_eq_zero.mp this.symm
  · intro h; rw [h]; rfl

theorem insertLe_pairwise {le : α → α → Bool}
    (htot : ∀ a b, le a b = true ∨ le b a = true)
    (htr : ∀ a b c, le a b = true → le b c = true → le a c = true)
    (a : α) {l : List α} (hl : l.Pairwise (fun x y => le x y = true)) :
    (insertLe le a l).Pairwise (fun x y => le x y = true) := by
  induction l with
  | nil => simp [insertLe]
  | cons b bs ih =>
    rcases List.pairwise_cons.mp hl with ⟨hb, hbs⟩
    by_cases h : le b a
    · rw [insertLe, if_pos h]
      refine List.pairwise_cons.mpr ⟨?_, ih hbs⟩
      intro y hy
      rcases mem_insertLe.mp hy with rfl | hy'
      · exact h
      · exact hb y hy'
    · rw [insertLe, if_neg h]
      refine List.pairwise_cons.mpr ⟨?_, hl⟩
      intro y hy
      have hab : le a b = true := by
        rcases htot a b with h' | h'
        · exact h'
        · exact absurd h' (by simpa using h)
      rcases List.mem_cons.mp hy with rfl | hy'
      · exact hab
      · exact htr a b y hab (hb y hy')

theorem sortBy_pairwise {le : α → α → Bool}
    (htot : ∀ a b, le a b = true ∨ le b a = true)
    (htr : ∀ a b c, le a b = true → le b c = true → le a c = true)
    (l : List α) :
    (sortBy le l).Pairwise (fun x y => le x y = true) := by
  induction l with
  | nil => simp [sortBy]
  | cons a as ih => exact insertLe_pairwise htot htr a ih

theorem sortBy_head_rel {le : α → α → Bool}
    (htot : ∀ a b, le a b = true ∨ le b a = true)
    (htr : ∀ a b c, le a b = true → le b c = true → le a c = true)
    {l : List α} {x : α} {xs : List α} (h : sortBy le l = x :: xs) :
    ∀ y ∈ l, le x y = true := by
  intro y hy
  have hmem : y ∈ x :: xs := by
    rw [← h]; exact mem_sortBy.mpr hy
  rcases List.mem_cons.mp hmem with rfl | hy'
  · rcases htot y y with h' | h' <;> exact h'
  · have hp := @sortBy_pairwise _ le htot htr l
    rw [h] at hp
    exact (List.pairwise_cons.mp hp).1 y hy'

theorem signalLeB_total : ∀ a b : Signal,
    signalLeB a b = true ∨ signalLeB b a = true := by
  intro a b
  simp only [signalLeB, decide_eq_true_eq]
  exact le_total a.timestamp b.timestamp

theorem signalLeB_trans : ∀ a b c : Signal, signalLeB a b = true →
    signalLeB b c = true → signalLeB a c = true := by
  intro a b c
  simp only [signalLeB, decide_eq_true_eq]
  exact le_trans

theorem ruleDescLeB_total : ∀ a b : BillingRule,
    ruleDescLeB a b = true ∨ ruleDescLeB b a = true := by
  intro a b
  simp only [ruleDescLeB, decide_eq_true_eq]
  exact le_total b.effective_from a.effective_from

theorem ruleDescLeB_trans : ∀ a b c : BillingRule, ruleDescLeB a b = true →
    ruleDescLeB b c = true → ruleDescLeB a c = true := by
  intro a b c
  simp only [ruleDescLeB, decide_eq_true_eq]
  intro h1 h2
  exact le_trans h2 h1

/-! ## Helper lemmas: idle detector -/

theorem detect_pairs_eq_zip (θ : ℤ) (l : List Signal) :
    detect_pairs θ l =
      ((l.zip l.tail).filter
        (fun p => decide (((p.2.timestamp - p.1.timestamp) / 60 : ℚ) ≥ (θ : ℚ)))).map
        (fun p => ⟨p.1.timestamp, p.2.timestamp,
          pyInt ((p.2.timestamp - p.1.timestamp) / 60), "inactivity_threshold"⟩) := by
  induction l with
  | nil => rfl
  | cons a rest ih =>
    cases rest with
    | nil => rfl
    | cons b rest2 =>
      rw [detect_pairs, ih]
      by_cases hg : ((θ : ℚ) ≤ (b.timestamp - a.timestamp) / 60)
      · simp [List.zip_cons_cons, List.filter_cons, hg]
      · simp [List.zip_cons_cons, List.filter_cons, hg]

theorem detect_pairs_mem {θ : ℤ} {l : List Signal}
    (hs : l.Pairwise (fun a b => signalLeB a b = true)) :
    ∀ p ∈ detect_pairs θ l,
      p.reason = "inactivity_threshold" ∧
      (θ : ℚ) ≤ (p.end_time - p.start_time) / 60 ∧
      p.idle_minutes = ⌊(p.end_time - p.start_time) / 60⌋ ∧
      p.start_time ≤ p.end_time := by
  induction l with
  | nil => intro p hp; simp [detect_pairs] at hp
  | cons a rest ih =>
    cases rest with
    | nil => intro p hp; simp [detect_pairs] at hp
    | cons b rest2 =>
      intro p hp
      rw [detect_pairs] at hp
      rcases List.mem_append.mp hp with h1 | h2
      · have hab : a.timestamp ≤ b.timestamp := by
          have := (List.pairwise_cons.mp hs).1 b (by simp)
          simpa [signalLeB] using this
        by_cases hg : (((b.timestamp - a.timestamp) / 60 : ℚ) ≥ (θ : ℚ))
        · rw [if_pos hg] at h1
          rcases List.mem_singleton.mp h1 with rfl
          refine ⟨rfl, hg, ?_, hab⟩
          have hnn : (0 : ℚ) ≤ (b.timestamp - a.timestamp) / 60 := by
            apply div_nonneg (by linarith) (by norm_num)
          simpa using pyInt_eq_floor_of_nonneg hnn
        · rw [if_neg hg] at h1
          simp at h1
      · exact ih (List.pairwise_cons.mp hs).2 p h2

theorem sortSignals_pairwise (l : List Signal) :
    (sortSignals l).Pairwise (fun a b => signalLeB a b = true) :=
  sortBy_pairwise signalLeB_total signalLeB_trans l

theorem detect_idle_periods_mem {signals : List Signal} {θ : ℤ} :
    ∀ p ∈ detect_idle_periods signals θ,
      p.reason = "inactivity_threshold" ∧
      (θ : ℚ) ≤ (p.end_time - p.start_time) / 60 ∧
      p.idle_minutes = ⌊(p.end_time - p.start_time) / 60⌋ ∧
      p.start_time ≤ p.end_time := by
  intro p hp
  unfold detect_idle_periods at hp
  by_cases h2 : signals.length < 2
  · rw [if_pos h2] at hp; simp at hp
  · rw [if_neg h2] at hp
    exact detect_pairs_mem (sortSignals_pairwise signals) p hp

/-! ## Helper lemmas: activity grouping -/

theorem group_loop_flatten_sublist (breaks : List IdleSignal) :
    ∀ (rest current : List Signal),
      (group_loop breaks current rest).flatten.Sublist (current ++ rest) := by
  intro rest
  induction rest with
  | nil =>
    intro current
    by_cases h : current.isEmpty
    · simp [group_loop, h]
    · simp [group_loop, h]
  | cons s rest2 ih =>
    intro current
    rw [group_loop]
    by_cases hb : (in_break breaks s && !current.isEmpty) = true
    · rw [if_pos hb]
      simp only [List.flatten_cons]
      have h1 : (group_loop breaks [] rest2).flatten.Sublist rest2 := by
        simpa using ih []
      have h2 : (current ++ (group_loop breaks [] rest2).flatten).Sublist
          (current ++ rest2) := h1.append_left current
      have h3 : (current ++ rest2).Sublist (current ++ s :: rest2) :=
        (List.sublist_cons_self s rest2).append_left current
      exact h2.trans h3
    · rw [if_neg hb]
      have := ih (current ++ [s])
      simpa using this

theorem group_loop_mem_of_current (breaks : List IdleSignal) :
    ∀ (rest current : List Signal) (x : Signal), x ∈ current →
      x ∈ (group_loop breaks current rest).flatten := by
  intro rest
  induction rest with
  | nil =>
    intro current x hx
    have hne : ¬ current.isEmpty := by
      cases current with
      | nil => simp at hx
      | cons c cs => simp
    simp [group_loop, hne, hx]
  | cons s rest2 ih =>
    intro current x hx
    rw [group_loop]
    by_cases hb : (in_break breaks s && !current.isEmpty) = true
    · rw [if_pos hb]
      simp [hx]
    · rw [if_neg hb]
      exact ih (current ++ [s]) x (by simp [hx])

theorem group_loop_mem_of_not_break (breaks : List IdleSignal) :
    ∀ (rest current : List Signal) (x : Signal), x ∈ rest →
      in_break breaks x = false →
      x ∈ (group_loop breaks current rest).flatten := by
  intro rest
  induction rest with
  | nil => intro current x hx; simp at hx
  | cons s rest2 ih =>
    intro current x hx hnb
    rw [group_loop]
    rcases List.mem_cons.mp hx with rfl | hx2
    · have hb : (in_break breaks x && !current.isEmpty) = false := by
        simp [hnb]
      rw [if_neg (by simp [hb])]
      exact group_loop_mem_of_current breaks rest2 (current ++ [x]) x (by simp)
    · by_cases hb : (in_break breaks s && !current.isEmpty) = true
      · rw [if_pos hb]
        simp only [List.flatten_cons, List.mem_append]
        exact Or.inr (ih [] x hx2 hnb)
      · rw [if_neg hb]
        exact ih (current ++ [s]) x hx2 hnb

/-! ## Helper lemmas: billing loop -/

theorem billing_loop_items (invoice_id : ℕ) (rule : Option BillingRule)
    (entries : List TimeEntry) :
    (billing_loop invoice_id rule entries).1 =
      entries.map (make_line_item invoice_id rule) := by
  induction entries with
  | nil => rfl
  | cons te rest ih => simp [billing_loop, ih]

theorem billing_loop_subtotal (invoice_id : ℕ) (rule : Option BillingRule)
    (entries : List TimeEntry) :
    (billing_loop invoice_id rule entries).2.1 =
      ((billing_loop invoice_id rule entries).1.map (·.amount_cents)).sum := by
  induction entries with
  | nil => rfl
  | cons te rest ih => simp [billing_loop, ih]

theorem billing_loop_entries (invoice_id : ℕ) (rule : Option BillingRule)
    (entries : List TimeEntry) :
    (billing_loop invoice_id rule entries).2.2 =
      entries.map (bill_entry rule) := by
  induction entries with
  | nil => rfl
  | cons te rest ih => simp [billing_loop, ih]

theorem make_line_item_amount (invoice_id : ℕ) (rule : Option BillingRule)
    (te : TimeEntry) :
    (make_line_item invoice_id rule te).amount_cents =
      roundHalfEven ((make_line_item invoice_id rule te).quantity_hours *
        ((make_line_item invoice_id rule te).unit_price_cents : ℚ)) := by
  cases rule <;> simp [make_line_item, pyRound_eq_roundHalfEven]

/-- The match predicate of the resolver, spelled as a proposition. -/
theorem rule_matches_iff (project_id : ℕ) (now : ℚ) (r : BillingRule) :
    rule_matches project_id now r = true ↔
      r.project_id = project_id ∧ r.effective_from ≤ now ∧
        (r.effective_to = none ∨ ∃ t, r.effective_to = some t ∧ now < t) := by
  unfold rule_matches
  cases h : r.effective_to with
  | none => simp [h]
  | some t => simp [h, and_assoc]

/-! ## Helper lemmas: scenario evaluations -/

theorem sig0900_ts : sig0900.timestamp = 32400 := rfl
theorem sig0905_ts : sig0905.timestamp = 32700 := rfl
theorem sig0910_ts : sig0910.timestamp = 33000 := rfl
theorem sig0941_ts : sig0941.timestamp = 34860 := rfl
theorem sig0945_ts : sig0945.timestamp = 35100 := rfl
theorem work_sig0900 : is_work_related sig0900 = true := by decide
theorem work_sig0905 : is_work_related sig0905 = true := by decide
theorem work_sig0910 : is_work_related sig0910 = true := by decide
theorem work_sig0941 : is_work_related sig0941 = true := by decide
theorem work_sig0945 : is_work_related sig0945 = true := by decide
theorem cls_sig0900 : classify_signal sig0900 = .focused_work := by decide
theorem cls_sig0905 : classify_signal sig0905 = .focused_work := by decide
theorem cls_sig0941 : classify_signal sig0941 = .research := by decide
theorem cls_sig0945 : classify_signal sig0945 = .research := by decide

/-- The activity groups of the scenario stream: the `09:10` signal, lying
on the boundary of the break idle period `[09:10, 09:41]`, triggers the
flush of the first group without being appended anywhere; the `09:41`
signal also lies in the break but arrives while the current group is
empty and therefore IS appended (the `else` branch of the loop). -/
theorem scenario_groups :
    group_activities scenario_signals 5 10 =
      [[sig0900, sig0905], [sig0941, sig0945]] := by
  norm_num [group_activities, break_periods, detect_idle_periods,
    scenario_signals, sortSignals, sortBy, insertLe, signalLeB, detect_pairs,
    pyInt, sig0900_ts, sig0905_ts, sig0910_ts, sig0941_ts, sig0945_ts,
    work_sig0900, work_sig0905, work_sig0910, work_sig0941, work_sig0945,
    filter_idle_periods, should_merge_with_idle, in_break, group_loop,
    List.filter]

/-- The suggested entries of the scenario stream, projected onto the
fields the spec's scenario pins down. -/
theorem scenario_entries :
    (generate_time_entries scenario_signals 5 10).map
      (fun e => (e.started_at, e.ended_at, e.confidence, e.should_verify)) =
      [(32400, 32700, 9/10, false), (34860, 35100, 3/4, false)] := by
  rw [generate_time_entries, scenario_groups]
  norm_num [sortSignals, sortBy, insertLe, signalLeB, sig0900_ts, sig0905_ts,
    sig0941_ts, sig0945_ts, cls_sig0900, cls_sig0905, cls_sig0941, cls_sig0945,
    create_suggested_entry, calculate_confidence, tally, bump, firstMax,
    type_multiplier, UNCERTAIN_THRESHOLD, FOCUSED_WORK_WEIGHT, RESEARCH_WEIGHT,
    MEETING_WEIGHT, COMMUNICATION_WEIGHT, List.filterMap_cons,
    List.filterMap_nil, List.getLastD]
  norm_num [List.cons_ne_nil]

/-- The single break period of the scenario stream. -/
theorem scenario_breaks :
    break_periods scenario_signals 5 10 =
      [⟨33000, 34860, 31, "inactivity_threshold"⟩] := by
  norm_num [break_periods, detect_idle_periods, scenario_signals, sortSignals,
    sortBy, insertLe, signalLeB, detect_pairs, pyInt, sig0900_ts, sig0905_ts,
    sig0910_ts, sig0941_ts, sig0945_ts, work_sig0900, work_sig0905,
    work_sig0910, work_sig0941, work_sig0945, filter_idle_periods,
    should_merge_with_idle, List.filter]

/-! ## Helper lemmas: concurrency schedules -/

theorem bill_schedules_eq :
    bill_schedules =
      [[.read1, .commit1, .read2, .commit2],
       [.read1, .read2, .commit1, .commit2],
       [.read1, .read2, .commit2, .commit1],
       [.read2, .read1, .commit1, .commit2],
       [.read2, .read1, .commit2, .commit1],
       [.read2, .commit2, .read1, .commit1]] := by
  simp [bill_schedules, interleavings]

/-! ## Claim C1 — line-item rounding -/

/-- C1, counterexample: the claim asserts round-half-up at the half-cent
boundary, but a 30-minute entry at 101 cents/hour prices `0.5 × 101 =
50.5` cents to `50` (Python's `round` is half-to-even), not to the `51`
that rounding half up (Mathlib's `round`) yields. -/
theorem C1_counterexample :
    (make_line_item 1 (some rule101) te30).amount_cents ≠
      round ((make_line_item 1 (some rule101) te30).quantity_hours *
        ((make_line_item 1 (some rule101) te30).unit_price_cents : ℚ)) := by
  have h1 : (make_line_item 1 (some rule101) te30).amount_cents = 50 := by
    norm_num [make_line_item, rule101, te30, _round_minutes, pyRound,
      pyFloor_eq_floor]
  have h2 : (make_line_item 1 (some rule101) te30).quantity_hours = 1/2 := by
    norm_num [make_line_item, rule101, te30, _round_minutes]
  have h3 : (make_line_item 1 (some rule101) te30).unit_price_cents = 101 := by
    norm_num [make_line_item, rule101, te30]
  rw [h1, h2, h3]
  norm_num [round_eq]

/-- C1 (amended): for every time entry and resolved billing rule, the
emitted line item's `amount_cents` equals `quantity_hours` times the
rule's `rate_cents` rounded to the nearest integer cent with ties going
to the even cent (Python 3 `round`, half-to-even — not half-up); when no
rule applies the rate is `0` and `amount_cents` is `0`. -/
theorem C1_line_item_rounding (invoice_id : ℕ) (rule : Option BillingRule)
    (te : TimeEntry) :
    (make_line_item invoice_id rule te).amount_cents =
      roundHalfEven ((make_line_item invoice_id rule te).quantity_hours *
        ((make_line_item invoice_id rule te).unit_price_cents : ℚ)) ∧
    (∀ r, rule = some r →
      (make_line_item invoice_id rule te).unit_price_cents = r.rate_cents) ∧
    (rule = none →
      (make_line_item invoice_id rule te).unit_price_cents = 0 ∧
      (make_line_item invoice_id rule te).amount_cents = 0) := by
  refine ⟨make_line_item_amount invoice_id rule te, ?_, ?_⟩
  · rintro r rfl
    rfl
  · rintro rfl
    refine ⟨rfl, ?_⟩
    simp [make_line_item, pyRound_zero]

/-- C1, witness: the rounding identity and the zero-rate case at the
concrete 30-minute entry. -/
theorem C1_witness :
    (make_line_item 1 (some rule101) te30).amount_cents =
      roundHalfEven ((make_line_item 1 (some rule101) te30).quantity_hours *
        ((make_line_item 1 (some rule101) te30).unit_price_cents : ℚ)) ∧
    (make_line_item 1 none te30).amount_cents = 0 :=
  ⟨(C1_line_item_rounding 1 (some rule101) te30).1,
   ((C1_line_item_rounding 1 none te30).2.2 rfl).2⟩

/-! ## Claim C4 — the two-session scenario -/

/-- C4, counterexample: on the scenario stream the first suggested entry
spans `09:00–09:05`, not the claimed `09:00–09:10` — the `09:10` signal
falls on the boundary of the break period `[09:10, 09:41]`, triggers the
group flush and is dropped. -/
theorem C4_counterexample :
    (generate_time_entries scenario_signals 5 10).map
      (fun e => (e.started_at, e.ended_at, e.confidence, e.should_verify)) ≠
      [(32400, 33000, 9/10, false), (34860, 35100, 3/4, false)] := by
  rw [scenario_entries]
  intro h
  have h2 : ((32400 : ℚ), (32700 : ℚ), (9/10 : ℚ), false) =
      ((32400 : ℚ), (33000 : ℚ), (9/10 : ℚ), false) := by
    injection h
  have h3 : (32700 : ℚ) = 33000 := by
    have := congrArg (fun p => p.2.1) h2
    simp at this
  norm_num at h3

/-- C4 (amended): for the signals at `09:00, 09:05, 09:10` (all `vscode`,
keyboard) and `09:41, 09:45` (`chrome`, `stackoverflow.com`),
`generate_time_entries` with idle threshold `5` and max merge idle `10`
returns exactly two suggested entries: the first spanning `09:00` to
`09:05` (the `09:10` signal lies on the break boundary, flushes the group
and is dropped) with confidence `0.9` and `should_verify = false`; the
second spanning `09:41` to `09:45` with confidence `0.75` and
`should_verify = false`. -/
theorem C4_scenario :
    (generate_time_entries scenario_signals 5 10).length = 2 ∧
    (generate_time_entries scenario_signals 5 10).map
      (fun e => (e.started_at, e.ended_at, e.confidence, e.should_verify)) =
      [(32400, 32700, 9/10, false), (34860, 35100, 3/4, false)] := by
  refine ⟨?_, scenario_entries⟩
  have h := congrArg List.length scenario_entries
  simpa using h

/-! ## Claim C5 — the grouping partition property -/

/-- C5, counterexample: the `09:10` signal is work-related and part of
the input stream, yet belongs to no emitted group — grouping drops it
(it lies in a break period while a group is open), so the union of the
groups is not the whole work-filtered input. -/
theorem C5_counterexample :
    sig0910 ∈ scenario_signals.filter is_work_related ∧
    sig0910 ∉ (group_activities scenario_signals 5 10).flatten := by
  refine ⟨by decide, ?_⟩
  rw [scenario_groups]
  decide

/-- C5 (amended): for every input stream, the concatenation of the
emitted groups is a sublist of the work-filtered input (no duplicates,
no fabricated signals, input order preserved), and every work-related
signal NOT lying inside a break idle period appears in some group; a
work signal inside a break period can be dropped (exactly when it
arrives while a group is open). -/
theorem C5_grouping_partition (signals : List Signal) (θ max_merge : ℤ) :
    ((group_activities signals θ max_merge).flatten).Sublist
      (signals.filter is_work_related) ∧
    (∀ s ∈ signals.filter is_work_related,
      in_break (break_periods signals θ max_merge) s = false →
      s ∈ (group_activities signals θ max_merge).flatten) := by
  unfold group_activities
  by_cases h1 : signals.isEmpty
  · have : signals = [] := List.isEmpty_iff.mp h1
    subst this
    simp
  · rw [if_neg h1]
    by_cases h2 : (signals.filter is_work_related).isEmpty
    · rw [if_pos h2]
      have : signals.filter is_work_related = [] := List.isEmpty_iff.mp h2
      rw [this]
      simp
    · rw [if_neg h2]
      constructor
      · simpa using
          group_loop_flatten_sublist (break_periods signals θ max_merge)
            (signals.filter is_work_related) []
      · intro s hs hnb
        exact group_loop_mem_of_not_break _ _ [] s hs hnb

/-- C5, witness: on the scenario stream the group concatenation is a
sublist of the work signals, and the `09:45` signal (outside every break
period) is indeed in a group. -/
theorem C5_witness :
    ((group_activities scenario_signals 5 10).flatten).Sublist
      (scenario_signals.filter is_work_related) ∧
    sig0945 ∈ (group_activities scenario_signals 5 10).flatten := by
  refine ⟨(C5_grouping_partition scenario_signals 5 10).1, ?_⟩
  apply (C5_grouping_partition scenario_signals 5 10).2 sig0945 (by decide)
  rw [scenario_breaks]
  norm_num [in_break, sig0945_ts]

/-! ## Claim C7 — rounding minutes up to the increment -/

/-- C7: `_round_minutes` returns the minutes unchanged for an absent or
zero increment, and otherwise (positive increment) returns the least
multiple of the increment that is at least the minutes; `17` minutes at
increment `15` round to `30`, and with `rate_cents = 10000` the entry
prices at `quantity_hours = 0.5` and `amount_cents = 5000`. -/
theorem C7_round_up_to_increment :
    (∀ m : ℤ, _round_minutes m none = m ∧ _round_minutes m (some 0) = m) ∧
    (∀ m k : ℤ, 0 < k →
      k ∣ _round_minutes m (some k) ∧
      m ≤ _round_minutes m (some k) ∧
      (∀ c : ℤ, k ∣ c → m ≤ c → _round_minutes m (some k) ≤ c)) ∧
    _round_minutes 17 (some 15) = 30 ∧
    (make_line_item 0 (some rule15) te17).quantity_hours = 1/2 ∧
    (make_line_item 0 (some rule15) te17).amount_cents = 5000 := by
  have h30 : _round_minutes te17.duration_minutes
      rule15.rounding_increment_minutes = 30 := by decide
  refine ⟨?_, ?_, by decide, ?_, ?_⟩
  · intro m
    exact ⟨rfl, by simp [_round_minutes]⟩
  · intro m k hk
    have hk0 : (0 : ℤ) ≤ k := le_of_lt hk
    have hkne : k ≠ 0 := ne_of_gt hk
    have hd : _round_minutes m (some k) = ((m + k - 1) / k) * k := by
      show (if k ≤ 0 then m else (m + k - 1).fdiv k * k) = _
      rw [if_neg (not_le.mpr hk), Int.fdiv_eq_ediv _ hk0]
    have hmod := Int.ediv_add_emod (m + k - 1) k
    have hs0 : 0 ≤ (m + k - 1) % k := Int.emod_nonneg _ hkne
    have hs1 : (m + k - 1) % k < k := Int.emod_lt_of_pos _ hk
    refine ⟨?_, ?_, ?_⟩
    · rw [hd]; exact dvd_mul_left k _
    · rw [hd]
      have hq : ((m + k - 1) / k) * k = k * ((m + k - 1) / k) := mul_comm _ _
      rw [hq]
      linarith
    · intro c hc hmc
      obtain ⟨d, rfl⟩ := hc
      have h1 : m + k - 1 ≤ k * d + k - 1 := by linarith
      have h2 : (m + k - 1) / k ≤ (k * d + k - 1) / k := Int.ediv_le_ediv hk h1
      have h3 : (k * d + k - 1) / k = d := by
        have he : k * d + k - 1 = (k - 1) + k * d := by ring
        rw [he, Int.add_mul_ediv_left _ d hkne,
          Int.ediv_eq_zero_of_lt (by linarith) (by linarith), zero_add]
      rw [hd]
      have h4 : (m + k - 1) / k ≤ d := h3 ▸ h2
      calc ((m + k - 1) / k) * k ≤ d * k :=
            mul_le_mul_of_nonneg_right h4 hk0
        _ = k * d := mul_comm d k
  · simp only [make_line_item, h30]
    norm_num
  · simp only [make_line_item, h30]
    norm_num [pyRound, pyFloor_eq_floor, rule15]

/-- C7, witness: the no-increment case and the least-multiple bounds at
`17` minutes with increment `15`. -/
theorem C7_witness :
    _round_minutes 17 none = 17 ∧
    (15 : ℤ) ∣ _round_minutes 17 (some 15) ∧
    (17 : ℤ) ≤ _round_minutes 17 (some 15) ∧
    _round_minutes 17 (some 15) ≤ 30 :=
  ⟨(C7_round_up_to_increment.1 17).1,
   (C7_round_up_to_increment.2.1 17 15 (by norm_num)).1,
   (C7_round_up_to_increment.2.1 17 15 (by norm_num)).2.1,
   (C7_round_up_to_increment.2.1 17 15 (by norm_num)).2.2 30
     (by norm_num) (by norm_num)⟩

/-! ## Claim C8 — idle detection -/

/-- C8, counterexample: at threshold `0`, signals at `0 s`, `0 s` and
`345 s` yield a period with `end = start` (refuting `end > start` as
stated for every threshold) and a period of gap `5.75` minutes recorded
as `idle_minutes = 5` — `int()` truncation, not the claimed
round-to-nearest (`round(5.75) = 6`). -/
theorem C8_counterexample :
    detect_idle_periods idleCx_signals 0 =
      [⟨0, 0, 0, "inactivity_threshold"⟩,
       ⟨0, 345, 5, "inactivity_threshold"⟩] ∧
    ¬ ((0 : ℚ) < (0 : ℚ)) ∧
    (5 : ℤ) ≠ round (((345 : ℚ) - 0) / 60) := by
  refine ⟨?_, by norm_num, by norm_num [round_eq]⟩
  norm_num [detect_idle_periods, idleCx_signals, sortSignals, sortBy,
    insertLe, signalLeB, detect_pairs]
  constructor
  · rw [pyInt_eq_floor_of_nonneg le_rfl]; norm_num
  · rw [pyInt_eq_floor_of_nonneg (by norm_num)]; norm_num

/-- C8 (amended): `detect_idle_periods` returns the empty list for zero
or one signals; it always equals the map over the adjacent pairs of the
timestamp-sorted stream whose gap reaches the threshold, each period
carrying reason `inactivity_threshold`; every emitted period satisfies
`start ≤ end`, with `end > start` whenever the threshold is at least 1;
and `idle_minutes` is the gap in minutes truncated to an integer
(`int()` — the floor, not round-to-nearest). -/
theorem C8_idle_detection (signals : List Signal) (θ : ℤ) :
    (signals.length ≤ 1 → detect_idle_periods signals θ = []) ∧
    detect_idle_periods signals θ =
      (((sortSignals signals).zip (sortSignals signals).tail).filter
        (fun p => decide (((p.2.timestamp - p.1.timestamp) / 60 : ℚ) ≥ (θ : ℚ)))).map
        (fun p => ⟨p.1.timestamp, p.2.timestamp,
          pyInt ((p.2.timestamp - p.1.timestamp) / 60), "inactivity_threshold"⟩) ∧
    (∀ p ∈ detect_idle_periods signals θ,
      p.reason = "inactivity_threshold" ∧
      p.idle_minutes = ⌊(p.end_time - p.start_time) / 60⌋ ∧
      p.start_time ≤ p.end_time ∧
      (1 ≤ θ → p.start_time < p.end_time)) := by
  refine ⟨?_, ?_, ?_⟩
  · intro h1
    unfold detect_idle_periods
    rw [if_pos (by omega)]
  · unfold detect_idle_periods
    by_cases h : signals.length < 2
    · rw [if_pos h]
      have hl : (sortSignals signals).length < 2 := by
        rw [sortSignals, length_sortBy]; exact h
      cases hs : sortSignals signals with
      | nil => simp
      | cons a t =>
        cases t with
        | nil => simp
        | cons b t2 => rw [hs] at hl; simp at hl; omega
    · rw [if_neg h]
      exact detect_pairs_eq_zip θ _
  · intro p hp
    obtain ⟨hr, hge, hid, hse⟩ := detect_idle_periods_mem p hp
    refine ⟨hr, hid, hse, ?_⟩
    intro hθ
    have h1 : (1 : ℚ) ≤ (p.end_time - p.start_time) / 60 :=
      le_trans (by exact_mod_cast hθ) hge
    have h2 : (1 : ℚ) * 60 ≤ p.end_time - p.start_time :=
      (le_div_iff₀ (by norm_num)).mp h1
    linarith

/-- C8, witness: a single signal yields no periods; the `5.75`-minute
pair at threshold `5` yields the period `⟨0, 345, 5⟩`, whose
`idle_minutes` is the floored gap and whose endpoints are strictly
ordered. -/
theorem C8_witness :
    detect_idle_periods [⟨0, none, none, none⟩] 5 = [] ∧
    (⟨0, 345, 5, "inactivity_threshold"⟩ : IdleSignal) ∈
      detect_idle_periods c8pair_signals 5 ∧
    (5 : ℤ) = ⌊((345 : ℚ) - 0) / 60⌋ ∧ ((0 : ℚ) < 345) := by
  have hmem : (⟨0, 345, 5, "inactivity_threshold"⟩ : IdleSignal) ∈
      detect_idle_periods c8pair_signals 5 := by
    norm_num [detect_idle_periods, c8pair_signals, sortSignals, sortBy,
      insertLe, signalLeB, detect_pairs]
    rw [pyInt_eq_floor_of_nonneg (by norm_num)]
    norm_num
  obtain ⟨_, hid, _, hlt⟩ := (C8_idle_detection c8pair_signals 5).2.2 _ hmem
  refine ⟨(C8_idle_detection [⟨0, none, none, none⟩] 5).1 (by norm_num),
    hmem, hid, hlt (by norm_num)⟩

/-! ## Claim C10 — classifier totality -/

/-- C10, counterexample: a signal whose `app` key is present with value
`None` makes `classify_signal` evaluate `None.lower()` and raise
`AttributeError` (modelled as `none`), refuting totality over signals
with null fields. -/
theorem C10_counterexample : classify_signal_py nullAppSignal = none := rfl

/-- C10 (amended): for every raw signal none of whose present fields is
`None`, `classify_signal` returns an `ActivityType` without raising —
the one computed by the table / work-domain / keyboard-fallback chain —
and `is_work_related` holds exactly when that type is not `personal`;
a present-but-`None` field, however, raises. -/
theorem C10_classifier_totality (s : PySignal)
    (ha : s.app ≠ .null) (hd : s.domain ≠ .null) (hk : s.kind ≠ .null) :
    classify_signal_py s =
      some (classify_signal ⟨0, s.app.toOpt, s.domain.toOpt, s.kind.toOpt⟩) ∧
    (∀ t, classify_signal_py s = some t →
      (is_work_related_py s = some true ↔ t ≠ .personal)) := by
  refine ⟨classify_signal_py_eq_of_no_null s 0 ha hd hk, ?_⟩
  intro t ht
  rw [is_work_related_py, ht]
  simp

/-! ## Claim C2 — subtotal and total identities -/

/-- C2: on every successful invoice-generation run, the invoice's
`subtotal_cents` equals the exact integer sum of the generated line
items' `amount_cents`, its `total_cents` equals `subtotal_cents` plus
the invoice's pre-existing `tax_cents`, and the tax itself is passed
through unchanged — `total_cents` is never computed another way. -/
theorem C2_totals_identity (invoice : Invoice) (all_entries : List TimeEntry)
    (rules : List BillingRule) (ps pe : Option ℚ) (now : ℚ)
    (r : GenerateResult)
    (h : generate_invoice_task invoice all_entries rules ps pe now = .ok r) :
    r.invoice.subtotal_cents = (r.line_items.map (·.amount_cents)).sum ∧
    r.invoice.total_cents = r.invoice.subtotal_cents + invoice.tax_cents ∧
    r.invoice.tax_cents = invoice.tax_cents := by
  unfold generate_invoice_task at h
  by_cases he :
      (select_entries all_entries invoice.client_id invoice.project_id
        ps pe).isEmpty
  · rw [if_pos he] at h
    cases h
  · rw [if_neg he] at h
    have hr := Except.ok.inj h
    subst hr
    refine ⟨?_, rfl, rfl⟩
    exact billing_loop_subtotal _ _ _

/-- C2, witness: the concrete run whose three line items price at
`3333`, `3333` and `3334` cents — subtotal exactly `10000`, total
`10500` with the pre-existing `500` cents of tax. -/
theorem C2_witness :
    generate_invoice_task invC2 [teC2a, teC2b, teC2c] [ruleC2]
      none none 0 = .ok c2res ∧
    c2res.invoice.subtotal_cents =
      (c2res.line_items.map (·.amount_cents)).sum ∧
    c2res.invoice.total_cents = c2res.invoice.subtotal_cents +
      invC2.tax_cents ∧
    c2res.line_items.map (·.amount_cents) = [3333, 3333, 3334] ∧
    c2res.invoice.subtotal_cents = 10000 ∧
    c2res.invoice.total_cents = 10500 := by
  have h3333 : pyRound ((3333 : ℚ)) = 3333 := by
    norm_num [pyRound, pyFloor_eq_floor]
  have h3334 : pyRound ((6667 : ℚ)/2) = 3334 := by
    norm_num [pyRound, pyFloor_eq_floor]
  have h : generate_invoice_task invC2 [teC2a, teC2b, teC2c] [ruleC2]
      none none 0 = .ok c2res := by
    norm_num [generate_invoice_task, select_entries, sortBy, insertLe,
      entryLeB, invC2, teC2a, teC2b, teC2c, ruleC2, get_active_for_project,
      rule_matches, ruleDescLeB, billing_loop, make_line_item, bill_entry,
      _round_minutes, c2res, List.filter, h3333, h3334]
    decide
  obtain ⟨h1, h2, _⟩ :=
    C2_totals_identity invC2 [teC2a, teC2b, teC2c] [ruleC2] none none 0
      c2res h
  exact ⟨h, h1, h2, by norm_num [c2res], rfl, rfl⟩

/-! ## Claim C3 — at-most-once billing -/

/-- C3, counterexample: `racy_schedule` — both workers read the entry as
`approved` before either commits — is a legitimate interleaving of two
billing attempts, yet both create a line item: the final state holds two
line items, not the claimed exactly one. -/
theorem C3_counterexample :
    racy_schedule ∈ bill_schedules ∧
    te30.status = "approved" ∧
    (run_bill 1 none (bill_init te30) racy_schedule).items.length = 2 := by
  refine ⟨?_, rfl, ?_⟩
  · rw [bill_schedules_eq]
    simp [racy_schedule]
  · simp [run_bill, racy_schedule, bill_init, bill_step, te30, bill_entry]

/-- C3 (amended): a commit creates a line item only when its read saw
`approved` (otherwise it is a no-op), and a creating commit appends
exactly one line item and transitions the entry to `billed` with the
resolved rule attached; but because the read and the write are separate
atomic steps with no conditional update, of two concurrent attempts on
an approved entry every interleaving bills the entry and creates one OR
two line items — exactly one precisely when the attempts are serialized
(one worker's commit precedes the other's read). -/
theorem C3_at_most_once (invoice_id : ℕ) (rule : Option BillingRule)
    (te : TimeEntry) (happ : te.status = "approved") :
    (∀ st : BillState, st.read1 ≠ some "approved" →
      bill_step invoice_id rule st .commit1 = st) ∧
    (∀ st : BillState, st.read2 ≠ some "approved" →
      bill_step invoice_id rule st .commit2 = st) ∧
    (∀ st : BillState, st.read1 = some "approved" →
      (bill_step invoice_id rule st .commit1).items =
        st.items ++ [make_line_item invoice_id rule st.entry] ∧
      (bill_step invoice_id rule st .commit1).entry.status = "billed" ∧
      (∀ rr, rule = some rr →
        (bill_step invoice_id rule st .commit1).entry.billing_rule_id =
          some rr.id)) ∧
    (∀ sched ∈ bill_schedules,
      (run_bill invoice_id rule (bill_init te) sched).entry.status =
        "billed" ∧
      ((run_bill invoice_id rule (bill_init te) sched).items.length = 1 ∨
       (run_bill invoice_id rule (bill_init te) sched).items.length = 2) ∧
      ((run_bill invoice_id rule (bill_init te) sched).items.length = 1 ↔
        serialized sched)) := by
  refine ⟨?_, ?_, ?_, ?_⟩
  · intro st h
    simp [bill_step, h]
  · intro st h
    simp [bill_step, h]
  · intro st h
    refine ⟨by simp [bill_step, h], by simp [bill_step, h, bill_entry], ?_⟩
    rintro rr rfl
    simp [bill_step, h, bill_entry]
  · intro sched hs
    rw [bill_schedules_eq] at hs
    simp only [List.mem_cons, List.mem_singleton, List.not_mem_nil,
      or_false] at hs
    rcases hs with rfl | rfl | rfl | rfl | rfl | rfl <;>
      simp [run_bill, bill_step, bill_init, happ, bill_entry, serialized]

/-- C3, witness: the serialized schedule on the concrete approved entry
bills it exactly once. -/
theorem C3_witness :
    (run_bill 1 none (bill_init te30)
      [.read1, .commit1, .read2, .commit2]).entry.status = "billed" ∧
    (run_bill 1 none (bill_init te30)
      [.read1, .commit1, .read2, .commit2]).items.length = 1 := by
  have h := (C3_at_most_once 1 none te30 rfl).2.2.2
    [.read1, .commit1, .read2, .commit2]
    (by rw [bill_schedules_eq]; simp)
  exact ⟨h.1, h.2.2.mpr (Or.inl rfl)⟩

/-! ## Claim C6 — billing-rule resolution -/

/-- C6: resolving the active rule for a project considers exactly the
project's rules with `effective_from ≤ now` and `effective_to` null or
strictly after `now`; among matches it returns one with the maximum
`effective_from`; it returns `none` (not an error) exactly when no rule
matches; with Rule A effective `[2024-01-01, 2024-06-01)` and Rule B
effective `[2024-03-01, null)` the instant `2024-04-01` resolves to
Rule B; and line items built with no rule bill at rate `0` and amount
`0`. -/
theorem C6_rule_resolution :
    (∀ (rules : List BillingRule) (pid : ℕ) (now : ℚ) (r : BillingRule),
      get_active_for_project rules pid now = some r →
        r ∈ rules ∧
        (r.project_id = pid ∧ r.effective_from ≤ now ∧
          (r.effective_to = none ∨ ∃ t, r.effective_to = some t ∧ now < t)) ∧
        (∀ r' ∈ rules, r'.project_id = pid → r'.effective_from ≤ now →
          (r'.effective_to = none ∨ ∃ t, r'.effective_to = some t ∧ now < t) →
          r'.effective_from ≤ r.effective_from)) ∧
    (∀ (rules : List BillingRule) (pid : ℕ) (now : ℚ),
      get_active_for_project rules pid now = none ↔
        ∀ r ∈ rules, ¬ (r.project_id = pid ∧ r.effective_from ≤ now ∧
          (r.effective_to = none ∨ ∃ t, r.effective_to = some t ∧ now < t))) ∧
    get_active_for_project [ruleA, ruleB] 7 apr1 = some ruleB ∧
    (∀ (invoice_id : ℕ) (te : TimeEntry),
      (make_line_item invoice_id none te).unit_price_cents = 0 ∧
      (make_line_item invoice_id none te).amount_cents = 0) := by
  refine ⟨?_, ?_, by decide, ?_⟩
  · intro rules pid now r h
    unfold get_active_for_project at h
    cases hs : sortBy ruleDescLeB (rules.filter (rule_matches pid now)) with
    | nil => rw [hs] at h; cases h
    | cons x xs =>
      rw [hs] at h
      have hx : x = r := Option.some.inj h
      subst hx
      have hmem : x ∈ rules.filter (rule_matches pid now) := by
        have : x ∈ sortBy ruleDescLeB (rules.filter (rule_matches pid now)) := by
          rw [hs]; exact List.mem_cons_self x xs
        exact mem_sortBy.mp this
      obtain ⟨hin, hmat⟩ := List.mem_filter.mp hmem
      refine ⟨hin, (rule_matches_iff pid now x).mp hmat, ?_⟩
      intro r' hr' h1 h2 h3
      have hmat' : rule_matches pid now r' = true :=
        (rule_matches_iff pid now r').mpr ⟨h1, h2, h3⟩
      have hmemf : r' ∈ rules.filter (rule_matches pid now) :=
        List.mem_filter.mpr ⟨hr', hmat'⟩
      have := sortBy_head_rel ruleDescLeB_total ruleDescLeB_trans hs r' hmemf
      simpa [ruleDescLeB] using this
  · intro rules pid now
    unfold get_active_for_project
    rw [List.head?_eq_none_iff, sortBy_eq_nil_iff, List.filter_eq_nil_iff]
    constructor
    · intro hall r hr hprop
      exact hall r hr ((rule_matches_iff pid now r).mpr hprop)
    · intro hall r hr hmat
      exact hall r hr ((rule_matches_iff pid now r).mp hmat)
  · intro invoice_id te
    exact ⟨rfl, by simp [make_line_item, pyRound_zero]⟩

/-- C6, witness: Rule B wins at `2024-04-01` (both match, B's
`effective_from` is maximal); before either rule's window nothing
matches and the resolver yields `none`; and a no-rule line item has
amount `0`. -/
theorem C6_witness :
    get_active_for_project [ruleA, ruleB] 7 apr1 = some ruleB ∧
    ruleB ∈ [ruleA, ruleB] ∧
    ruleA.effective_from ≤ ruleB.effective_from ∧
    get_active_for_project [ruleA, ruleB] 7 (-5) = none ∧
    (make_line_item 0 none te30).amount_cents = 0 := by
  have hex := C6_rule_resolution.2.2.1
  have h1 := C6_rule_resolution.1 [ruleA, ruleB] 7 apr1 ruleB hex
  refine ⟨hex, h1.1, ?_, ?_, (C6_rule_resolution.2.2.2 0 te30).2⟩
  · exact h1.2.2 ruleA (by simp) rfl (by norm_num [ruleA, apr1])
      (Or.inr ⟨152, rfl, by norm_num [apr1]⟩)
  · refine (C6_rule_resolution.2.1 [ruleA, ruleB] 7 (-5)).mpr ?_
    intro r hr
    rcases List.mem_cons.mp hr with rfl | hr2
    · rintro ⟨-, habs, -⟩
      norm_num [ruleA] at habs
    · rcases List.mem_singleton.mp hr2 with rfl
      rintro ⟨-, habs, -⟩
      norm_num [ruleB] at habs

/-! ## Claim C9 — empty entry selection fails loudly -/

/-- C9: when the invoice's client/project/period selects no approved
time entries, generation returns the explicit error result (the source's
message is `"No approved time entries found for invoice"`), creating no
line items and returning no updated state; when the selection is
non-empty the run succeeds — also when no billing rule matches — with
one line item per selected entry. -/
theorem C9_no_billable_entries (invoice : Invoice)
    (all_entries : List TimeEntry) (rules : List BillingRule)
    (ps pe : Option ℚ) (now : ℚ) :
    (select_entries all_entries invoice.client_id invoice.project_id ps pe
        = [] →
      generate_invoice_task invoice all_entries rules ps pe now =
        .error "No approved time entries found for invoice") ∧
    (select_entries all_entries invoice.client_id invoice.project_id ps pe
        ≠ [] →
      (generate_invoice_task invoice all_entries rules ps pe now).isOk =
        true) ∧
    (∀ r, generate_invoice_task invoice all_entries rules ps pe now =
        .ok r →
      r.line_items.length =
        (select_entries all_entries invoice.client_id invoice.project_id
          ps pe).length) := by
  refine ⟨?_, ?_, ?_⟩
  · intro h
    unfold generate_invoice_task
    rw [if_pos (List.isEmpty_iff.mpr h)]
  · intro h
    unfold generate_invoice_task
    rw [if_neg (fun hc => h (List.isEmpty_iff.mp hc))]
    rfl
  · intro r h
    unfold generate_invoice_task at h
    by_cases he :
        (select_entries all_entries invoice.client_id invoice.project_id
          ps pe).isEmpty
    · rw [if_pos he] at h
      cases h
    · rw [if_neg he] at h
      have hr := Except.ok.inj h
      subst hr
      simp [billing_loop_items]

/-- C9, witness: an invoice selecting no entries yields the explicit
error; an invoice with one approved entry but an empty rule table (no
rule matches) succeeds. -/
theorem C9_witness :
    generate_invoice_task invC9 [] [] none none 0 =
      .error "No approved time entries found for invoice" ∧
    (generate_invoice_task invC9b [te30] [] none none 0).isOk = true := by
  constructor
  · exact (C9_no_billable_entries invC9 [] [] none none 0).1 rfl
  · exact (C9_no_billable_entries invC9b [te30] [] none none 0).2.1
      (by decide)

/-- C10, witness: a `vscode` signal with the other keys absent
classifies without raising, and its work-relatedness matches the
classification. -/
theorem C10_witness :
    classify_signal_py ⟨.str "vscode", .absent, .absent⟩ =
      some (classify_signal ⟨0, some "vscode", none, none⟩) ∧
    (is_work_related_py ⟨.str "vscode", .absent, .absent⟩ = some true ↔
      classify_signal ⟨0, some "vscode", none, none⟩ ≠ .personal) :=
  ⟨(C10_classifier_totality ⟨.str "vscode", .absent, .absent⟩
      (by decide) (by decide) (by decide)).1,
   (C10_classifier_totality ⟨.str "vscode", .absent, .absent⟩
      (by decide) (by decide) (by decide)).2 _
     (C10_classifier_totality ⟨.str "vscode", .absent, .absent⟩
      (by decide) (by decide) (by decide)).1⟩

end BillOps
